import Mathlib

set_option maxHeartbeats 1000000

/-!
Verification of the `Vector3` value type of FishEngine
(`Engine/Source/Runtime/Vector3.hpp`) against its specification.

Two embeddings are used.

* `FishEngineF`: an exact, computable model of the `float` fields.  A field
  is a `NaN`, a signed infinity or an exact rational value; arithmetic follows
  the IEEE-754 propagation rules for those classes (NaN propagates, `x/0`
  is a signed infinity for `x ≠ 0` and NaN for `0/0`, comparisons with NaN
  are false).  Rounding and overflow of finite values are idealized away:
  finite arithmetic is exact rational arithmetic.  Debug assertions
  (`Assert(...)`) are modelled by `Option`: `none` means the assertion
  fired.  This model settles the claims about the NaN / division-by-zero
  assertion discipline and about the epsilon equality operators.

* `FishEngine`: a real-valued model of the same operations with the
  assertions erased (release semantics), used for the geometric and
  interpolation claims, where `float` is idealized as `ℝ`.
-/

namespace FishEngineF

/-- A `float` value: NaN, a signed infinity (`true` = `+inf`), or an exact
finite value. -/
inductive F where
  | nan : F
  | inf : Bool → F
  | val : ℚ → F
deriving DecidableEq

/-- `isnan(f)`. -/
def F.isnan : F → Bool
  | .nan => true
  | _ => false

/-- `f == 0.0f` (false for NaN and for the infinities). -/
def F.eqZero : F → Bool
  | .val q => decide (q = 0)
  | _ => false

/-- A finite (neither NaN nor infinite) value. -/
def F.isFinite : F → Bool
  | .val _ => true
  | _ => false

/-- IEEE negation. -/
def F.neg : F → F
  | .nan => .nan
  | .inf b => .inf (!b)
  | .val q => .val (-q)

/-- IEEE addition on the value classes; finite addition is exact. -/
def F.add : F → F → F
  | .nan, _ => .nan
  | _, .nan => .nan
  | .inf b, .inf c => if b = c then .inf b else .nan
  | .inf b, .val _ => .inf b
  | .val _, .inf c => .inf c
  | .val p, .val q => .val (p + q)

/-- IEEE subtraction, `a + (-b)`. -/
def F.sub (a b : F) : F := a.add b.neg

/-- IEEE multiplication on the value classes; finite multiplication is
exact.  `inf * 0` is NaN. -/
def F.mul : F → F → F
  | .nan, _ => .nan
  | _, .nan => .nan
  | .inf b, .inf c => .inf (b = c)
  | .inf b, .val q => if q = 0 then .nan else if 0 < q then .inf b else .inf (!b)
  | .val q, .inf b => if q = 0 then .nan else if 0 < q then .inf b else .inf (!b)
  | .val p, .val q => .val (p * q)

/-- IEEE division on the value classes; finite division is exact.  `x / 0`
is a signed infinity for finite `x ≠ 0` (the zero divisor is `+0`), and NaN
for `0 / 0` and `inf / inf`. -/
def F.div : F → F → F
  | .nan, _ => .nan
  | _, .nan => .nan
  | .inf _, .inf _ => .nan
  | .inf b, .val q => if 0 ≤ q then .inf b else .inf (!b)
  | .val _, .inf _ => .val 0
  | .val p, .val q =>
      if q = 0 then (if p = 0 then .nan else if 0 < p then .inf true else .inf false)
      else .val (p / q)

/-- IEEE `<`: false whenever an operand is NaN. -/
def F.lt : F → F → Bool
  | .nan, _ => false
  | _, .nan => false
  | .inf b, .inf c => !b && c
  | .inf b, .val _ => !b
  | .val _, .inf c => c
  | .val p, .val q => decide (p < q)

/-- IEEE `>=`: false whenever an operand is NaN, otherwise the negation
of `<`. -/
def F.ge : F → F → Bool
  | .nan, _ => false
  | _, .nan => false
  | .inf b, .inf c => !(F.lt (.inf b) (.inf c))
  | .inf b, .val q => !(F.lt (.inf b) (.val q))
  | .val p, .inf c => !(F.lt (.val p) (.inf c))
  | .val p, .val q => !(F.lt (.val p) (.val q))

/-- The three `float` fields of `Vector3`. -/
structure Vector3 where
  x : F
  y : F
  z : F
deriving DecidableEq

/-- `hasNaNs()`: `isnan(x) || isnan(y) || isnan(z)`. -/
def Vector3.hasNaNs (v : Vector3) : Bool := v.x.isnan || v.y.isnan || v.z.isnan

/-- `Assert(cond)` in a debug build: evaluation stops (`none`) when the
condition is false. -/
def assertThat (cond : Bool) (a : α) : Option α := if cond then some a else none

/-- `Vector3(float x, float y, float z)`: initializes the fields and then
runs `Assert(!hasNaNs())`. -/
def Vector3.mk3 (x y z : F) : Option Vector3 :=
  assertThat (!(Vector3.mk x y z).hasNaNs) (Vector3.mk x y z)

/-- `Vector3(float* array)`: copies `array[0..2]` into the fields.  The
source has no assertion in this constructor. -/
def Vector3.mkArray (a0 a1 a2 : F) : Option Vector3 := some (Vector3.mk a0 a1 a2)

/-- `operator/(const float f) const`: `Assert(!isnan(f) && f != 0.f)`, then
returns `Vector3(x / f, y / f, z / f)`, whose constructor asserts that the
result has no NaN field. -/
def Vector3.divScalar (v : Vector3) (f : F) : Option Vector3 :=
  if f.isnan || f.eqZero then none
  else Vector3.mk3 (v.x.div f) (v.y.div f) (v.z.div f)

/-- `operator/=(const float f)`: `Assert(!isnan(f))` only — there is no
`f != 0` test — and then each field is divided in place, with no further
check on the result. -/
def Vector3.divAssign (v : Vector3) (f : F) : Option Vector3 :=
  if f.isnan then none
  else some (Vector3.mk (v.x.div f) (v.y.div f) (v.z.div f))

/-- The value part of `operator-(const Vector3&)` (its debug assertion is
modelled separately): component-wise subtraction. -/
def Vector3.subV (a b : Vector3) : Vector3 := ⟨a.x.sub b.x, a.y.sub b.y, a.z.sub b.z⟩

/-- `SqrMagnitude(a)` = `a.x*a.x + a.y*a.y + a.z*a.z` (left associated). -/
def Vector3.SqrMagnitude (a : Vector3) : F :=
  ((a.x.mul a.x).add (a.y.mul a.y)).add (a.z.mul a.z)

/-- The float literal `9.99999944E-11f` of `operator==` / `operator!=`,
read at its decimal value. -/
def eqEpsilon : ℚ := 999999944 / 10 ^ 19

/-- `operator==`: `SqrMagnitude(lhs - rhs) < 9.99999944E-11f`. -/
def Vector3.beq (lhs rhs : Vector3) : Bool :=
  (Vector3.SqrMagnitude (lhs.subV rhs)).lt (F.val eqEpsilon)

/-- `operator!=`: `SqrMagnitude(lhs - rhs) >= 9.99999944E-11f`. -/
def Vector3.bne (lhs rhs : Vector3) : Bool :=
  (Vector3.SqrMagnitude (lhs.subV rhs)).ge (F.val eqEpsilon)

/-- All three fields finite: no NaN and no infinity. -/
def Vector3.allFinite (v : Vector3) : Bool := v.x.isFinite && v.y.isFinite && v.z.isFinite

end FishEngineF

namespace FishEngine

noncomputable section

/-- The value model of `Vector3` over exact reals: the IEEE `float` fields
are idealized as real numbers (release semantics, the debug assertions are
modelled in `FishEngineF`). -/
@[ext]
structure Vector3 where
  x : ℝ
  y : ℝ
  z : ℝ

/-- `Vector3::zero` = `Vector3(0, 0, 0)`. -/
def Vector3.zero : Vector3 := ⟨0, 0, 0⟩

/-- Value part of `operator+(const Vector3&)`. -/
def Vector3.addV (a b : Vector3) : Vector3 := ⟨a.x + b.x, a.y + b.y, a.z + b.z⟩

/-- Value part of `operator-(const Vector3&)`. -/
def Vector3.subV (a b : Vector3) : Vector3 := ⟨a.x - b.x, a.y - b.y, a.z - b.z⟩

/-- `operator-()`: unary negation. -/
def Vector3.negV (v : Vector3) : Vector3 := ⟨-v.x, -v.y, -v.z⟩

/-- Value part of `operator*(const float f)`: `Vector3(x * f, y * f, z * f)`. -/
def Vector3.mulF (v : Vector3) (f : ℝ) : Vector3 := ⟨v.x * f, v.y * f, v.z * f⟩

/-- Value part of `operator/(const float f)`: `Vector3(x / f, y / f, z / f)`. -/
def Vector3.divF (v : Vector3) (f : ℝ) : Vector3 := ⟨v.x / f, v.y / f, v.z / f⟩

/-- `sqrMagnitude()` = `x*x + y*y + z*z`. -/
def Vector3.sqrMagnitude (v : Vector3) : ℝ := v.x * v.x + v.y * v.y + v.z * v.z

/-- `magnitude()` = `sqrtf(x*x + y*y + z*z)`. -/
def Vector3.magnitude (v : Vector3) : ℝ :=
  Real.sqrt (v.x * v.x + v.y * v.y + v.z * v.z)

/-- `Dot(lhs, rhs)` = `lhs.x*rhs.x + lhs.y*rhs.y + lhs.z*rhs.z`. -/
def Vector3.Dot (lhs rhs : Vector3) : ℝ := lhs.x * rhs.x + lhs.y * rhs.y + lhs.z * rhs.z

/-- `Cross(lhs, rhs)`: the right-handed cross product of the source. -/
def Vector3.Cross (lhs rhs : Vector3) : Vector3 :=
  ⟨lhs.y * rhs.z - lhs.z * rhs.y, lhs.z * rhs.x - lhs.x * rhs.z, lhs.x * rhs.y - lhs.y * rhs.x⟩

/-- Static `Normalize(value)`: `num = value.magnitude(); if (num > 1E-05f)
return value / num; return Vector3::zero;`. -/
def Vector3.Normalize (value : Vector3) : Vector3 :=
  if 1e-5 < value.magnitude then value.divF value.magnitude else Vector3.zero

/-- The mutating instance `Normalize()`: `len = magnitude(); if (len > 1e-5f)
{ x /= len; y /= len; z /= len; } else { x = y = z = 0; }`, written as the
state transformer it performs on the vector. -/
def Vector3.NormalizeInPlace (v : Vector3) : Vector3 :=
  let len := v.magnitude
  if 1e-5 < len then ⟨v.x / len, v.y / len, v.z / len⟩ else ⟨0, 0, 0⟩

/-- `normalized()`: delegates to the static `Normalize`. -/
def Vector3.normalized (v : Vector3) : Vector3 := Vector3.Normalize v

/-- `ClampMagnitude(vector, maxLength)`: `if (vector.sqrMagnitude() >
maxLength * maxLength) return vector.normalized() * maxLength; return
vector;`. -/
def Vector3.ClampMagnitude (vector : Vector3) (maxLength : ℝ) : Vector3 :=
  if maxLength * maxLength < vector.sqrMagnitude then (vector.normalized).mulF maxLength
  else vector

/-- Modelled from the spec: `Mathf::Clamp01` (the `Mathf.hpp` source is not
part of the staged repository) — clamps a scalar to the interval `[0, 1]`. -/
def Mathf.Clamp01 (t : ℝ) : ℝ := max 0 (min 1 t)

/-- Modelled from the spec: `Mathf::Rad2Deg` (the `Mathf.hpp` source is not
part of the staged repository) — the radians-to-degrees conversion factor. -/
def Mathf.Rad2Deg : ℝ := 180 / Real.pi

/-- `Lerp(a, b, t)`: `t = Mathf::Clamp01(t); return Vector3(a.x + (b.x -
a.x) * t, a.y + (b.y - a.y) * t, a.z + (b.z - a.z) * t);`. -/
def Vector3.Lerp (a b : Vector3) (t : ℝ) : Vector3 :=
  let s := Mathf.Clamp01 t
  ⟨a.x + (b.x - a.x) * s, a.y + (b.y - a.y) * s, a.z + (b.z - a.z) * s⟩

/-- `LerpUnClamped(a, b, t)`: the same interpolation formula with `t` used
as given. -/
def Vector3.LerpUnClamped (a b : Vector3) (t : ℝ) : Vector3 :=
  ⟨a.x + (b.x - a.x) * t, a.y + (b.y - a.y) * t, a.z + (b.z - a.z) * t⟩

/-- `Angle(from, to)` = `acosf(Dot(Normalize(from), Normalize(to))) *
Mathf::Rad2Deg`. -/
def Vector3.Angle (frm tgt : Vector3) : ℝ :=
  Real.arccos (Vector3.Dot (Vector3.Normalize frm) (Vector3.Normalize tgt)) * Mathf.Rad2Deg

end

end FishEngine

/-! ## Theorems -/

namespace FishEngineF

/-- C1: the no-NaN fail-fast discipline is broken by the code.  The
`Vector3(float*)` constructor copies the array with no assertion, so it
silently builds a vector whose `x` field is NaN (while the three-argument
constructor would have asserted); and `operator/=` divides with no check on
the result, so `(0,0,0) /= 0.0f` silently turns every field into NaN
(`0/0`). -/
theorem nan_slips_through :
    Vector3.mkArray F.nan (F.val 0) (F.val 0) = some (Vector3.mk F.nan (F.val 0) (F.val 0)) ∧
    Vector3.hasNaNs (Vector3.mk F.nan (F.val 0) (F.val 0)) = true ∧
    Vector3.mk3 F.nan (F.val 0) (F.val 0) = none ∧
    Vector3.divAssign (Vector3.mk (F.val 0) (F.val 0) (F.val 0)) (F.val 0) =
      some (Vector3.mk F.nan F.nan F.nan) := by decide

/-- C2: `operator/` does assert a non-NaN, non-zero divisor (dividing
`(1,0,0)` by `0.0f` trips its assertion), but `operator/=` asserts only
`!isnan(f)`: the same division through `operator/=` passes the assertion
and silently yields `(+inf, NaN, NaN)`. -/
theorem divAssign_zero_not_asserted :
    Vector3.divScalar (Vector3.mk (F.val 1) (F.val 0) (F.val 0)) (F.val 0) = none ∧
    Vector3.divAssign (Vector3.mk (F.val 1) (F.val 0) (F.val 0)) (F.val 0) =
      some (Vector3.mk (F.inf true) F.nan F.nan) := by decide

/-- C5: on finite fields, `operator==` holds exactly when the squared
distance is below `9.99999944E-11`; `Vector3(1e-6,0,0) == Vector3(0,0,0)`
holds and `Vector3(1,0,0) == Vector3(0,0,0)` does not. -/
theorem eq_epsilon_spec (px py pz qx qy qz : ℚ) :
    (Vector3.beq (Vector3.mk (F.val px) (F.val py) (F.val pz))
        (Vector3.mk (F.val qx) (F.val qy) (F.val qz)) = true ↔
      (px - qx) * (px - qx) + (py - qy) * (py - qy) + (pz - qz) * (pz - qz) < eqEpsilon) ∧
    Vector3.beq (Vector3.mk (F.val (1 / 1000000)) (F.val 0) (F.val 0))
      (Vector3.mk (F.val 0) (F.val 0) (F.val 0)) = true ∧
    Vector3.beq (Vector3.mk (F.val 1) (F.val 0) (F.val 0))
      (Vector3.mk (F.val 0) (F.val 0) (F.val 0)) = false := by
  refine ⟨?_, ?_⟩
  · simp only [Vector3.beq, Vector3.subV, Vector3.SqrMagnitude, F.sub, F.neg, F.add, F.mul,
      F.lt, decide_eq_true_eq]
    ring_nf
  · simp only [Vector3.beq, Vector3.subV, Vector3.SqrMagnitude, F.sub, F.neg, F.add, F.mul,
      F.lt, eqEpsilon, decide_eq_true_eq, decide_eq_false_iff_not]
    norm_num

/-- C10 counterexample: the vector `(+inf, 0, 0)` is NaN-free, yet compared
with itself neither `operator==` nor `operator!=` holds, because
`inf - inf` is NaN and both comparisons with NaN are false.  So `!=` is not
the exact complement of `==` on all NaN-free vectors. -/
theorem eq_ne_both_false_on_inf :
    Vector3.hasNaNs (Vector3.mk (F.inf true) (F.val 0) (F.val 0)) = false ∧
    Vector3.beq (Vector3.mk (F.inf true) (F.val 0) (F.val 0))
      (Vector3.mk (F.inf true) (F.val 0) (F.val 0)) = false ∧
    Vector3.bne (Vector3.mk (F.inf true) (F.val 0) (F.val 0))
      (Vector3.mk (F.inf true) (F.val 0) (F.val 0)) = false := by decide

/-- C10 (amended): for vectors with all fields finite (no NaN and no
infinity), `operator!=` is the exact boolean complement of `operator==`,
and exactly one of the two holds — both compare the same squared distance
against the same constant with complementary comparisons. -/
theorem bne_complements_beq (a b : Vector3) (ha : a.allFinite = true)
    (hb : b.allFinite = true) :
    Vector3.bne a b = !(Vector3.beq a b) ∧
    ((Vector3.beq a b = true ∧ Vector3.bne a b = false) ∨
     (Vector3.beq a b = false ∧ Vector3.bne a b = true)) := by
  obtain ⟨ax, ay, az⟩ := a
  obtain ⟨bx, bY, bz⟩ := b
  simp only [Vector3.allFinite, Bool.and_eq_true] at ha hb
  obtain ⟨⟨hax, hay⟩, haz⟩ := ha
  obtain ⟨⟨hbx, hby⟩, hbz⟩ := hb
  rcases ax with _ | _ | px <;> simp_all [F.isFinite]
  rcases ay with _ | _ | py <;> simp_all [F.isFinite]
  rcases az with _ | _ | pz <;> simp_all [F.isFinite]
  rcases bx with _ | _ | qx <;> simp_all [F.isFinite]
  rcases bY with _ | _ | qy <;> simp_all [F.isFinite]
  rcases bz with _ | _ | qz <;> simp_all [F.isFinite]
  simp only [Vector3.bne, Vector3.beq, Vector3.subV, Vector3.SqrMagnitude, F.sub, F.neg,
    F.add, F.mul, F.lt, F.ge]
  by_cases h :
      (px + -qx) * (px + -qx) + (py + -qy) * (py + -qy) + (pz + -qz) * (pz + -qz) < eqEpsilon <;>
    simp [h]

/-- C10 witness: the amended complement law applied at the finite vectors
`(0,0,0)` and `(1,0,0)`. -/
theorem bne_complements_beq_at_concrete :
    Vector3.bne (Vector3.mk (F.val 0) (F.val 0) (F.val 0))
        (Vector3.mk (F.val 1) (F.val 0) (F.val 0)) =
      !(Vector3.beq (Vector3.mk (F.val 0) (F.val 0) (F.val 0))
        (Vector3.mk (F.val 1) (F.val 0) (F.val 0))) ∧
    ((Vector3.beq (Vector3.mk (F.val 0) (F.val 0) (F.val 0))
          (Vector3.mk (F.val 1) (F.val 0) (F.val 0)) = true ∧
        Vector3.bne (Vector3.mk (F.val 0) (F.val 0) (F.val 0))
          (Vector3.mk (F.val 1) (F.val 0) (F.val 0)) = false) ∨
     (Vector3.beq (Vector3.mk (F.val 0) (F.val 0) (F.val 0))
          (Vector3.mk (F.val 1) (F.val 0) (F.val 0)) = false ∧
        Vector3.bne (Vector3.mk (F.val 0) (F.val 0) (F.val 0))
          (Vector3.mk (F.val 1) (F.val 0) (F.val 0)) = true)) :=
  bne_complements_beq (Vector3.mk (F.val 0) (F.val 0) (F.val 0))
    (Vector3.mk (F.val 1) (F.val 0) (F.val 0)) (by decide) (by decide)

end FishEngineF

namespace FishEngine

theorem sqrMagnitude_nonneg (v : Vector3) : 0 ≤ v.sqrMagnitude := by
  have hx := mul_self_nonneg v.x
  have hy := mul_self_nonneg v.y
  have hz := mul_self_nonneg v.z
  unfold Vector3.sqrMagnitude
  linarith

theorem magnitude_eq_sqrt (v : Vector3) : v.magnitude = Real.sqrt v.sqrMagnitude := rfl

theorem magnitude_nonneg (v : Vector3) : 0 ≤ v.magnitude := Real.sqrt_nonneg _

theorem mul_self_magnitude (v : Vector3) : v.magnitude * v.magnitude = v.sqrMagnitude :=
  Real.mul_self_sqrt (sqrMagnitude_nonneg v)

theorem magnitude_mulF (v : Vector3) (c : ℝ) : (v.mulF c).magnitude = |c| * v.magnitude := by
  unfold Vector3.mulF Vector3.magnitude
  rw [show v.x * c * (v.x * c) + v.y * c * (v.y * c) + v.z * c * (v.z * c)
      = c * c * (v.x * v.x + v.y * v.y + v.z * v.z) by ring,
    Real.sqrt_mul (mul_self_nonneg c), Real.sqrt_mul_self_eq_abs]

theorem magnitude_divF (v : Vector3) (c : ℝ) : (v.divF c).magnitude = v.magnitude / |c| := by
  have h : v.divF c = v.mulF c⁻¹ := by
    unfold Vector3.divF Vector3.mulF
    ext <;> simp [div_eq_mul_inv]
  rw [h, magnitude_mulF, abs_inv, inv_mul_eq_div]

theorem magnitude_zero_vec : Vector3.zero.magnitude = 0 := by
  unfold Vector3.zero Vector3.magnitude
  simp

theorem magnitude_three_four : (⟨3, 4, 0⟩ : Vector3).magnitude = 5 := by
  unfold Vector3.magnitude
  rw [show (3 * 3 + 4 * 4 + 0 * 0 : ℝ) = 5 ^ 2 by norm_num, Real.sqrt_sq (by norm_num)]

/-- C3: the static pure `Normalize(v)` returns `v` divided by its magnitude
when the magnitude exceeds `1e-5` — and that result has magnitude exactly 1
in the real-valued model — and returns the zero vector otherwise. -/
theorem Normalize_spec (v : Vector3) :
    (1e-5 < v.magnitude →
      Vector3.Normalize v = v.divF v.magnitude ∧ (Vector3.Normalize v).magnitude = 1) ∧
    (v.magnitude ≤ 1e-5 → Vector3.Normalize v = Vector3.zero) := by
  constructor
  · intro h
    have heq : Vector3.Normalize v = v.divF v.magnitude := by
      unfold Vector3.Normalize
      rw [if_pos h]
    refine ⟨heq, ?_⟩
    have hpos : 0 < v.magnitude := lt_trans (by norm_num) h
    rw [heq, magnitude_divF, abs_of_pos hpos, div_self (ne_of_gt hpos)]
  · intro h
    unfold Vector3.Normalize
    rw [if_neg (not_lt.mpr h)]

/-- C3 witness: `Normalize` at the vector `(3, 4, 0)` of magnitude 5. -/
theorem Normalize_spec_at_340 :
    Vector3.Normalize ⟨3, 4, 0⟩ = Vector3.divF ⟨3, 4, 0⟩ (Vector3.magnitude ⟨3, 4, 0⟩) ∧
    (Vector3.Normalize ⟨3, 4, 0⟩).magnitude = 1 :=
  (Normalize_spec ⟨3, 4, 0⟩).1 (by rw [magnitude_three_four]; norm_num)

/-- C4: the mutating instance `Normalize()` leaves the vector exactly at
the value the static pure `Normalize` returns: divided by the magnitude in
place when the magnitude exceeds `1e-5`, all fields zero otherwise. -/
theorem NormalizeInPlace_eq (v : Vector3) :
    Vector3.NormalizeInPlace v = Vector3.Normalize v := by
  unfold Vector3.NormalizeInPlace Vector3.Normalize Vector3.divF Vector3.zero
  rfl

/-- C6: `ClampMagnitude(v, L)` returns `normalized(v) * L` when
`sqrMagnitude > L*L` and `v` unchanged otherwise; for `L ≥ 0` the result's
magnitude is at most `L`, and `v` comes back exactly whenever
`magnitude(v) ≤ L`. -/
theorem ClampMagnitude_spec (v : Vector3) (L : ℝ) :
    (L * L < v.sqrMagnitude → Vector3.ClampMagnitude v L = (v.normalized).mulF L) ∧
    (¬ L * L < v.sqrMagnitude → Vector3.ClampMagnitude v L = v) ∧
    (0 ≤ L → (Vector3.ClampMagnitude v L).magnitude ≤ L) ∧
    (v.magnitude ≤ L → Vector3.ClampMagnitude v L = v) := by
  have hbig : L * L < v.sqrMagnitude → Vector3.ClampMagnitude v L = (v.normalized).mulF L := by
    intro h
    unfold Vector3.ClampMagnitude
    rw [if_pos h]
  have hsmall : ¬ L * L < v.sqrMagnitude → Vector3.ClampMagnitude v L = v := by
    intro h
    unfold Vector3.ClampMagnitude
    rw [if_neg h]
  refine ⟨hbig, hsmall, ?_, ?_⟩
  · intro hL
    by_cases h : L * L < v.sqrMagnitude
    · rw [hbig h]
      unfold Vector3.normalized
      by_cases hm : 1e-5 < v.magnitude
      · have hpos : 0 < v.magnitude := lt_trans (by norm_num) hm
        rw [((Normalize_spec v).1 hm).1, magnitude_mulF, magnitude_divF,
          abs_of_pos hpos, div_self (ne_of_gt hpos), mul_one, abs_of_nonneg hL]
      · rw [(Normalize_spec v).2 (not_lt.mp hm), magnitude_mulF, magnitude_zero_vec, mul_zero]
        exact hL
    · rw [hsmall h]
      have h2 : v.sqrMagnitude ≤ L * L := not_lt.mp h
      have h3 : v.magnitude ≤ Real.sqrt (L * L) := by
        rw [magnitude_eq_sqrt]
        exact Real.sqrt_le_sqrt h2
      rwa [Real.sqrt_mul_self_eq_abs, abs_of_nonneg hL] at h3
  · intro h
    apply hsmall
    have h0 := magnitude_nonneg v
    have h1 : v.magnitude * v.magnitude ≤ L * L := mul_self_le_mul_self h0 h
    rw [mul_self_magnitude] at h1
    exact not_lt.mpr h1

/-- C6 witness: `ClampMagnitude` at the vector `(3, 4, 0)` of magnitude 5
with `maxLength = 10`: the vector comes back unchanged and its magnitude
stays at most 10. -/
theorem ClampMagnitude_spec_at_340 :
    Vector3.ClampMagnitude ⟨3, 4, 0⟩ 10 = (⟨3, 4, 0⟩ : Vector3) ∧
    (Vector3.ClampMagnitude ⟨3, 4, 0⟩ 10).magnitude ≤ 10 :=
  ⟨(ClampMagnitude_spec ⟨3, 4, 0⟩ 10).2.2.2 (by rw [magnitude_three_four]; norm_num),
   (ClampMagnitude_spec ⟨3, 4, 0⟩ 10).2.2.1 (by norm_num)⟩

/-- C7: `Lerp` clamps `t` to `[0, 1]` and then interpolates component-wise
as `a + (b - a) * t`, so `Lerp(a,b,0) = a`, `Lerp(a,b,1) = b`, and `t`
outside `[0, 1]` is clamped to the endpoint; `LerpUnClamped` applies the
same formula with `t` unclamped. -/
theorem Lerp_spec (a b : Vector3) (t : ℝ) :
    Vector3.Lerp a b t = Vector3.LerpUnClamped a b (Mathf.Clamp01 t) ∧
    Vector3.Lerp a b 0 = a ∧
    Vector3.Lerp a b 1 = b ∧
    (t ≤ 0 → Vector3.Lerp a b t = a) ∧
    (1 ≤ t → Vector3.Lerp a b t = b) ∧
    Vector3.LerpUnClamped a b t = a.addV ((b.subV a).mulF t) := by
  have hc0 : ∀ s : ℝ, s ≤ 0 → Mathf.Clamp01 s = 0 := by
    intro s hs
    unfold Mathf.Clamp01
    rw [min_eq_right (le_trans hs (by norm_num)), max_eq_left hs]
  have hc1 : ∀ s : ℝ, 1 ≤ s → Mathf.Clamp01 s = 1 := by
    intro s hs
    unfold Mathf.Clamp01
    rw [min_eq_left hs, max_eq_right (by norm_num)]
  have hzero : ∀ s : ℝ, Mathf.Clamp01 s = 0 → Vector3.Lerp a b s = a := by
    intro s hs
    unfold Vector3.Lerp
    ext <;> simp [hs]
  have hone : ∀ s : ℝ, Mathf.Clamp01 s = 1 → Vector3.Lerp a b s = b := by
    intro s hs
    unfold Vector3.Lerp
    ext <;> simp [hs]
  refine ⟨rfl, hzero 0 (hc0 0 le_rfl), hone 1 (hc1 1 le_rfl),
    fun h => hzero t (hc0 t h), fun h => hone t (hc1 t h), ?_⟩
  unfold Vector3.LerpUnClamped Vector3.addV Vector3.subV Vector3.mulF
  ext <;> simp

/-- C7 witness: `Lerp` at `a = (1,2,3)`, `b = (4,5,6)` with the
out-of-range parameters `t = -2` and `t = 3`, clamped to the endpoints. -/
theorem Lerp_spec_at_concrete :
    Vector3.Lerp ⟨1, 2, 3⟩ ⟨4, 5, 6⟩ (-2) = (⟨1, 2, 3⟩ : Vector3) ∧
    Vector3.Lerp ⟨1, 2, 3⟩ ⟨4, 5, 6⟩ 3 = (⟨4, 5, 6⟩ : Vector3) :=
  ⟨(Lerp_spec ⟨1, 2, 3⟩ ⟨4, 5, 6⟩ (-2)).2.2.2.1 (by norm_num),
   (Lerp_spec ⟨1, 2, 3⟩ ⟨4, 5, 6⟩ 3).2.2.2.2.1 (by norm_num)⟩

/-- C8: the dot product is symmetric, the cross product is antisymmetric,
and the cross product of a vector with itself is the zero vector. -/
theorem Dot_Cross_spec (a b : Vector3) :
    Vector3.Dot a b = Vector3.Dot b a ∧
    Vector3.Cross a b = (Vector3.Cross b a).negV ∧
    Vector3.Cross a a = Vector3.zero := by
  refine ⟨by unfold Vector3.Dot; ring, ?_, ?_⟩
  · unfold Vector3.Cross Vector3.negV
    ext <;> simp <;> ring
  · unfold Vector3.Cross Vector3.zero
    ext <;> simp <;> ring

/-- C9: `Angle(from, to)` is `arccos(Dot(Normalize(from), Normalize(to)))`
converted to degrees, and when either argument is the zero vector it is
defined and equal to exactly 90 degrees: the degenerate normalization
yields the zero vector, the dot product is 0, and `arccos 0` in degrees is
90. -/
theorem Angle_spec :
    (∀ frm tgt : Vector3, Vector3.Angle frm tgt =
      Real.arccos (Vector3.Dot (Vector3.Normalize frm) (Vector3.Normalize tgt)) *
        Mathf.Rad2Deg) ∧
    (∀ tgt : Vector3, Vector3.Angle Vector3.zero tgt = 90) ∧
    (∀ frm : Vector3, Vector3.Angle frm Vector3.zero = 90) := by
  have hnz : Vector3.Normalize Vector3.zero = Vector3.zero := by
    apply (Normalize_spec Vector3.zero).2
    rw [magnitude_zero_vec]
    norm_num
  have harc : Real.arccos 0 * Mathf.Rad2Deg = 90 := by
    rw [Real.arccos_zero]
    unfold Mathf.Rad2Deg
    field_simp
    ring
  refine ⟨fun frm tgt => rfl, ?_, ?_⟩
  · intro tgt
    unfold Vector3.Angle
    rw [hnz]
    have hd : Vector3.Dot Vector3.zero (Vector3.Normalize tgt) = 0 := by
      unfold Vector3.Dot Vector3.zero
      simp
    rw [hd, harc]
  · intro frm
    unfold Vector3.Angle
    rw [hnz]
    have hd : Vector3.Dot (Vector3.Normalize frm) Vector3.zero = 0 := by
      unfold Vector3.Dot Vector3.zero
      simp
    rw [hd, harc]

end FishEngine
